import Mathlib

/-!
Verification of the symptom-analysis core of `health_bot.py`.

Python strings are modelled as lists of Unicode code points (`Text`), and
the Python operations used by the code (`str.lower`, the `in` substring
test, `str.split`, `str.strip`, `str.isdigit`) are given explicit
definitions at that level.  The keyword table, a Python dict iterated in
insertion order, is modelled as an association list.  Effectful
collaborators (the JSON file read in `load_symptoms_db`, the generative
model call in `get_gemini_response`, the user prompt loop in
`report_symptoms`) are modelled by passing their outcomes as explicit
arguments.
-/

namespace HealthBot

/-- A Python string: the list of its Unicode code points. -/
abbrev Text := List Nat

/-- Code points of a Lean string literal, used to write concrete inputs. -/
def strToCodes (s : String) : Text := s.data.map Char.toNat

/-- ASCII case folding of one code point, as performed by `str.lower` on
the ASCII range (the only range exercised by the keyword tables and the
claims). -/
def lowerChar (c : Nat) : Nat := if 65 ≤ c ∧ c ≤ 90 then c + 32 else c

/-- `symptoms.lower()`. -/
def lowerText (s : Text) : Text := s.map lowerChar

/-- `needle` is an initial segment of `haystack`. -/
def isHeadOf : Text → Text → Bool
  | [], _ => true
  | _ :: _, [] => false
  | a :: as, b :: bs => a == b && isHeadOf as bs

/-- The Python substring test `needle in haystack`. -/
def occursIn (needle : Text) : Text → Bool
  | [] => isHeadOf needle []
  | c :: t => isHeadOf needle (c :: t) || occursIn needle t

/-- The value stored under one condition name in the symptoms database:
`data['keywords']` and `data['weight']`. -/
structure CondData where
  keywords : List Text
  weight : Int
deriving DecidableEq

/-- The symptoms database: a dict from condition name to its data,
iterated in insertion order. -/
abbrev SymptomsDb := List (Text × CondData)

/-- `analyze_symptoms` from `health_bot.py`: lower-case the input, then
for every condition and every keyword of that condition, if the keyword
occurs in the lower-cased input, append it to the keyword list and add
the condition's weight to the score. -/
def analyze_symptoms (symptoms : Text) (symptoms_db : SymptomsDb) : List Text × Int :=
  let symptoms_lower := lowerText symptoms
  symptoms_db.foldl
    (fun acc entry =>
      entry.2.keywords.foldl
        (fun acc2 keyword =>
          if occursIn keyword symptoms_lower then
            (acc2.1 ++ [keyword], acc2.2 + entry.2.weight)
          else acc2)
        acc)
    ([], 0)

/-- `get_verdict` from `health_bot.py`. -/
def get_verdict (score : Int) : String :=
  if score < 3 then "🟢 Home Care"
  else if 3 ≤ score ∧ score ≤ 5 then "🟡 Monitor"
  else "🔴 Urgent Care"

/-- Spec-side description of the matched-keyword list: every (condition,
keyword) pair of the table whose keyword occurs in the lower-cased input,
in table iteration order. -/
def matchedKeywords (symptoms : Text) (db : SymptomsDb) : List Text :=
  db.flatMap (fun entry => entry.2.keywords.filter (fun kw => occursIn kw (lowerText symptoms)))

/-- Spec-side description of the score: the sum, over every (condition,
keyword) pair whose keyword occurs in the lower-cased input, of that
condition's weight; a keyword shared by two conditions contributes
twice. -/
def totalScore (symptoms : Text) (db : SymptomsDb) : Int :=
  (db.flatMap (fun entry =>
    (entry.2.keywords.filter (fun kw => occursIn kw (lowerText symptoms))).map
      (fun _ => entry.2.weight))).sum

/-- `load_symptoms_db` from `health_bot.py`: the file read and JSON parse
are modelled by their outcome `raw`; on any failure the function logs and
returns the empty table instead of terminating. -/
def load_symptoms_db (raw : Except String SymptomsDb) : SymptomsDb :=
  match raw with
  | .ok db => db
  | .error _ => []

/-- `char.isdigit()` on the ASCII range: code points of the digits 0-9. -/
def isDigitCp (c : Nat) : Bool := decide (48 ≤ c ∧ c ≤ 57)

/-- `validate_symptoms` from `health_bot.py`: reject inputs shorter than
3 characters or containing a digit character. -/
def validate_symptoms (symptoms : Text) : Bool :=
  if symptoms.length < 3 then false
  else if symptoms.any isDigitCp then false
  else true

/-- ASCII whitespace code points, as stripped by `str.strip()`. -/
def isSpaceCp (c : Nat) : Bool :=
  c == 32 || c == 9 || c == 10 || c == 11 || c == 12 || c == 13

/-- `str.strip()`: drop leading and trailing whitespace. -/
def pyStrip (t : Text) : Text :=
  ((t.dropWhile isSpaceCp).reverse.dropWhile isSpaceCp).reverse

/-- The text after the first occurrence of `sep`, or `none` when `sep`
does not occur (the case where Python's `split(sep)[1]` raises). -/
def dropAfter (sep : Text) : Text → Option Text
  | [] => if isHeadOf sep [] then some [] else none
  | c :: t =>
    if isHeadOf sep (c :: t) then some (List.drop sep.length (c :: t))
    else dropAfter sep t

/-- The text before the first occurrence of `sep` (the whole text when
`sep` does not occur), Python's `split(sep)[0]`. -/
def takeBefore (sep : Text) : Text → Text
  | [] => []
  | c :: t => if isHeadOf sep (c :: t) then [] else c :: takeBefore sep t

/-- The section heading `💊 Remedy:` expected in the model's answer. -/
def remedyMarker : Text := strToCodes "💊 Remedy:"

/-- The section heading `👨‍⚕️ When to see doctor:` expected in the model's
answer. -/
def doctorMarker : Text := strToCodes "👨‍⚕️ When to see doctor:"

/-- The two labeled sections returned by `get_gemini_response`. -/
structure GeminiResponse where
  remedy : Text
  doctor_advice : Text
deriving DecidableEq

/-- `get_gemini_response` from `health_bot.py`: the external model call
is modelled by its outcome `result`.  On a call failure both sections are
fixed fallback strings; on a reply, each section is cut out of the text
by Python's `text.split(marker)[1].split(...)[0].strip()`, falling back
to a fixed string when its marker is absent (the `IndexError` branch). -/
def get_gemini_response (result : Except Text Text) : GeminiResponse :=
  match result with
  | .ok text =>
    let remedy :=
      match dropAfter remedyMarker text with
      | some rest => pyStrip (takeBefore doctorMarker (takeBefore remedyMarker rest))
      | none => strToCodes "Unable to parse remedy from AI response"
    let doctor_advice :=
      match dropAfter doctorMarker text with
      | some rest => pyStrip (takeBefore doctorMarker rest)
      | none => strToCodes "If symptoms persist or worsen, please consult a healthcare provider"
    { remedy := remedy, doctor_advice := doctor_advice }
  | .error _ =>
    { remedy := strToCodes "Error getting AI response. Please try again.",
      doctor_advice := strToCodes "If symptoms persist, please consult a healthcare provider." }

/-- The row inserted into the `sessions` table by `save_log` (the
timestamp, an ambient effect, is omitted). -/
structure SessionRecord where
  student_id : Text
  symptoms : Text
  keywords : List Text
  score : Int
  verdict : String
  response : GeminiResponse
deriving DecidableEq

/-- `save_log` from `health_bot.py`: the row persisted for one
interaction. -/
def save_log (symptoms : Text) (keywords : List Text) (score : Int)
    (verdict : String) (response : GeminiResponse) (student_id : Text) : SessionRecord :=
  { student_id := student_id, symptoms := symptoms, keywords := keywords,
    score := score, verdict := verdict, response := response }

/-- `report_symptoms` from `health_bot.py`: the prompt loop is modelled
by the stream `inputs` of texts the user enters, and the model call by
its outcome `adviceResult`.  Invalid input is rejected and the loop asks
again; on valid input the scorer, verdict, advice and persisted record
are produced and the loop ends.  `none` models a stream that ends before
any valid input. -/
def report_symptoms (student_id : Text) (symptoms_db : SymptomsDb)
    (adviceResult : Except Text Text) : List Text → Option SessionRecord
  | [] => none
  | symptoms :: rest =>
    if validate_symptoms symptoms then
      let analyzed := analyze_symptoms symptoms symptoms_db
      let verdict := get_verdict analyzed.2
      let response := get_gemini_response adviceResult
      some (save_log symptoms analyzed.1 analyzed.2 verdict response student_id)
    else
      report_symptoms student_id symptoms_db adviceResult rest

/-- A one-condition table used to evaluate the theorems on concrete
inputs. -/
def dbFlu : SymptomsDb := [(strToCodes "flu", { keywords := [strToCodes "fever"], weight := 2 })]

/-- A one-condition table whose single keyword is the empty string. -/
def dbEmptyKw : SymptomsDb := [(strToCodes "cond", { keywords := [([] : Text)], weight := 1 })]

/-- The record persisted for the input `headache` against an empty table
when the model call fails. -/
def recHeadache : SessionRecord :=
  { student_id := [], symptoms := strToCodes "headache", keywords := [], score := 0,
    verdict := "🟢 Home Care",
    response := { remedy := strToCodes "Error getting AI response. Please try again.",
                  doctor_advice := strToCodes "If symptoms persist, please consult a healthcare provider." } }

theorem inner_foldl (lw : Text) (w : Int) (kws : List Text) :
    ∀ acc : List Text × Int,
      kws.foldl
        (fun acc2 keyword =>
          if occursIn keyword lw then (acc2.1 ++ [keyword], acc2.2 + w) else acc2)
        acc
      = (acc.1 ++ kws.filter (fun kw => occursIn kw lw),
         acc.2 + ((kws.filter (fun kw => occursIn kw lw)).map (fun _ => w)).sum) := by
  induction kws with
  | nil => intro acc; simp
  | cons k rest ih =>
    intro acc
    rw [List.foldl_cons]
    by_cases h : occursIn k lw
    · rw [if_pos h, ih]
      simp [List.filter_cons, h, add_assoc]
    · rw [if_neg h, ih]
      simp [List.filter_cons, h]

theorem analyze_foldl_general (s : Text) (db : SymptomsDb) :
    ∀ acc : List Text × Int,
      db.foldl
        (fun acc entry =>
          entry.2.keywords.foldl
            (fun acc2 keyword =>
              if occursIn keyword (lowerText s) then
                (acc2.1 ++ [keyword], acc2.2 + entry.2.weight)
              else acc2)
            acc)
        acc
      = (acc.1 ++ matchedKeywords s db, acc.2 + totalScore s db) := by
  induction db with
  | nil => intro acc; simp [matchedKeywords, totalScore]
  | cons e rest ih =>
    intro acc
    rw [List.foldl_cons, inner_foldl, ih]
    simp [matchedKeywords, totalScore, add_assoc]

theorem analyze_eq (s : Text) (db : SymptomsDb) :
    analyze_symptoms s db = (matchedKeywords s db, totalScore s db) := by
  have h := analyze_foldl_general s db ([], 0)
  simpa [analyze_symptoms] using h

theorem lowerChar_idem (c : Nat) : lowerChar (lowerChar c) = lowerChar c := by
  unfold lowerChar
  split_ifs <;> omega

theorem lowerText_idem (t : Text) : lowerText (lowerText t) = lowerText t := by
  unfold lowerText
  rw [List.map_map]
  congr 1
  funext c
  exact lowerChar_idem c

theorem isHeadOf_map (f : Nat → Nat) :
    ∀ n h, isHeadOf n h = true → isHeadOf (n.map f) (h.map f) = true := by
  intro n
  induction n with
  | nil => intro h _; simp [isHeadOf]
  | cons a as ih =>
    intro h hh
    cases h with
    | nil => simp [isHeadOf] at hh
    | cons b bs =>
      simp only [isHeadOf, Bool.and_eq_true, beq_iff_eq] at hh
      simp only [List.map_cons, isHeadOf, Bool.and_eq_true, beq_iff_eq]
      exact ⟨by rw [hh.1], ih bs hh.2⟩

theorem occursIn_map (f : Nat → Nat) (n : Text) :
    ∀ h, occursIn n h = true → occursIn (n.map f) (h.map f) = true := by
  intro h
  induction h with
  | nil => intro hh; simpa [occursIn] using isHeadOf_map f n [] (by simpa [occursIn] using hh)
  | cons c t ih =>
    intro hh
    simp only [occursIn, Bool.or_eq_true] at hh
    simp only [List.map_cons, occursIn, Bool.or_eq_true]
    cases hh with
    | inl hh => exact Or.inl (by simpa using isHeadOf_map f n (c :: t) hh)
    | inr hh => exact Or.inr (ih hh)

theorem occursIn_lowered (kw t : Text) (h : occursIn kw (lowerText t) = true) :
    occursIn (lowerText kw) (lowerText t) = true := by
  have h2 := occursIn_map lowerChar kw (lowerText t) h
  have h3 : (lowerText t).map lowerChar = lowerText t := lowerText_idem t
  rw [h3] at h2
  exact h2

theorem occursIn_nil (h : Text) : occursIn ([] : Text) h = true := by
  cases h <;> simp [occursIn, isHeadOf]

theorem no_match_aux (t : Text) :
    ∀ db : SymptomsDb,
      (∀ e ∈ db, ∀ kw ∈ e.2.keywords, occursIn kw (lowerText t) = false) →
      matchedKeywords t db = [] ∧ totalScore t db = 0 := by
  intro db
  induction db with
  | nil => intro _; simp [matchedKeywords, totalScore]
  | cons e rest ih =>
    intro h
    have hfe : e.2.keywords.filter (fun kw => occursIn kw (lowerText t)) = [] := by
      rw [List.filter_eq_nil_iff]
      intro kw hkw
      simp [h e (List.mem_cons_self e rest) kw hkw]
    have hrest := ih (fun e' he' => h e' (List.mem_cons_of_mem e he'))
    constructor
    · have hr1 : matchedKeywords t rest = [] := hrest.1
      simp only [matchedKeywords, List.flatMap_cons] at hr1 ⊢
      simp [hfe, hr1]
    · have hr2 : totalScore t rest = 0 := hrest.2
      simp only [totalScore, List.flatMap_cons, List.sum_append] at hr2 ⊢
      rw [hfe]
      simpa using hr2

theorem score_nonneg_aux (t : Text) :
    ∀ db : SymptomsDb, (∀ e ∈ db, 0 ≤ e.2.weight) → 0 ≤ totalScore t db := by
  intro db
  induction db with
  | nil => intro _; simp [totalScore]
  | cons e rest ih =>
    intro h
    have h1 : 0 ≤ e.2.weight := h e (List.mem_cons_self e rest)
    have h2 := ih (fun e' he' => h e' (List.mem_cons_of_mem e he'))
    have h3 : 0 ≤ ((e.2.keywords.filter (fun kw => occursIn kw (lowerText t))).map
        (fun _ => e.2.weight)).sum := by
      apply List.sum_nonneg
      intro x hx
      rcases List.mem_map.mp hx with ⟨y, _, rfl⟩
      exact h1
    simp only [totalScore, List.flatMap_cons, List.sum_append] at h2 ⊢
    exact add_nonneg h3 h2

theorem report_some_shape (sid : Text) (db : SymptomsDb) (adv : Except Text Text) :
    ∀ (inputs : List Text) (r : SessionRecord),
      report_symptoms sid db adv inputs = some r →
      validate_symptoms r.symptoms = true ∧
      r.keywords = (analyze_symptoms r.symptoms db).1 ∧
      r.score = (analyze_symptoms r.symptoms db).2 ∧
      r.verdict = get_verdict r.score ∧
      r.response = get_gemini_response adv ∧
      r.student_id = sid := by
  intro inputs
  induction inputs with
  | nil => intro r h; simp [report_symptoms] at h
  | cons s rest ih =>
    intro r h
    by_cases hv : validate_symptoms s = true
    · simp only [report_symptoms, hv, if_true] at h
      have hr : r = save_log s (analyze_symptoms s db).1 (analyze_symptoms s db).2
          (get_verdict (analyze_symptoms s db).2) (get_gemini_response adv) sid := by
        exact (Option.some.injEq _ _ ▸ h).symm
      subst hr
      simp [save_log, hv]
    · have hv' : validate_symptoms s = false := by
        cases hb : validate_symptoms s with
        | false => rfl
        | true => exact absurd hb hv
      simp only [report_symptoms, hv', Bool.false_eq_true, if_false] at h
      exact ih r h

theorem dropAfter_eq_none (sep : Text) :
    ∀ t, occursIn sep t = false → dropAfter sep t = none := by
  intro t
  induction t with
  | nil =>
    intro h
    simp only [occursIn] at h
    simp [dropAfter, h]
  | cons c t ih =>
    intro h
    simp only [occursIn, Bool.or_eq_false_iff] at h
    simp [dropAfter, h.1, ih h.2]

/-- C1: for every keyword table and every input text, `analyze_symptoms`
returns exactly the keywords of the (condition, keyword) pairs whose
keyword occurs in the lower-cased input, in table iteration order, and a
score equal to the sum of the weights of those pairs; a keyword shared by
two conditions contributes its weight twice, once per pair. -/
theorem analyze_matches_spec_sum (symptoms : Text) (db : SymptomsDb) :
    analyze_symptoms symptoms db = (matchedKeywords symptoms db, totalScore symptoms db) :=
  analyze_eq symptoms db

/-- C2: `get_verdict` maps a score below 3 to the Home Care band, a score
between 3 and 5 to the Monitor band, and a score above 5 to the Urgent
Care band (the code renders each band with a leading status glyph), with
the boundary scores 2, 3, 5 and 6 fixed exactly as given. -/
theorem get_verdict_bands (score : Int) :
    (score < 3 → get_verdict score = "🟢 Home Care") ∧
    (3 ≤ score → score ≤ 5 → get_verdict score = "🟡 Monitor") ∧
    (5 < score → get_verdict score = "🔴 Urgent Care") ∧
    get_verdict 2 = "🟢 Home Care" ∧ get_verdict 3 = "🟡 Monitor" ∧
    get_verdict 5 = "🟡 Monitor" ∧ get_verdict 6 = "🔴 Urgent Care" := by
  refine ⟨?_, ?_, ?_, by decide, by decide, by decide, by decide⟩
  · intro h
    simp [get_verdict, h]
  · intro h1 h2
    have h3 : ¬score < 3 := by omega
    simp [get_verdict, h3, h1, h2]
  · intro h
    have h1 : ¬score < 3 := by omega
    have h2 : ¬(3 ≤ score ∧ score ≤ 5) := by omega
    simp [get_verdict, h1, h2]

theorem get_verdict_bands_witness :
    get_verdict 2 = "🟢 Home Care" ∧ get_verdict 3 = "🟡 Monitor" ∧
    get_verdict 5 = "🟡 Monitor" ∧ get_verdict 6 = "🔴 Urgent Care" :=
  ⟨(get_verdict_bands 2).1 (by decide),
   (get_verdict_bands 3).2.1 (by decide) (by decide),
   (get_verdict_bands 5).2.1 (by decide) (by decide),
   (get_verdict_bands 6).2.2.1 (by decide)⟩

/-- C3 counterexample: matching is not case-insensitive in the keyword.
The keyword `Fever` matches the input `fever` once the case of both is
disregarded, yet `analyze_symptoms` matches nothing and scores 0,
because only the input is lower-cased and the keyword is compared
verbatim. -/
theorem analyze_not_fully_case_insensitive :
    occursIn (lowerText (strToCodes "Fever")) (lowerText (strToCodes "fever")) = true ∧
    analyze_symptoms (strToCodes "fever")
      [(strToCodes "flu", { keywords := [strToCodes "Fever"], weight := 2 })] = ([], 0) := by
  decide

/-- C3 amended: matching is case-insensitive in the input only.  A
keyword of a condition of the table is matched by `analyze_symptoms` —
appended to the matched list — if and only if the keyword, with its own
case preserved, occurs as a substring of the lower-cased input; the score
is the sum of weights over exactly those verbatim matches. -/
theorem analyze_match_verbatim_in_lowered_input (db : SymptomsDb) (t : Text)
    (entry : Text × CondData) (kw : Text)
    (h1 : entry ∈ db) (h2 : kw ∈ entry.2.keywords) :
    (kw ∈ (analyze_symptoms t db).1 ↔ occursIn kw (lowerText t) = true) ∧
    (analyze_symptoms t db).2 = totalScore t db := by
  constructor
  · rw [analyze_eq]
    show kw ∈ matchedKeywords t db ↔ occursIn kw (lowerText t) = true
    constructor
    · intro hmem
      rcases List.mem_flatMap.mp hmem with ⟨e, _, hf⟩
      exact (List.mem_filter.mp hf).2
    · intro hocc
      exact List.mem_flatMap.mpr ⟨entry, h1, List.mem_filter.mpr ⟨h2, hocc⟩⟩
  · rw [analyze_eq]

theorem analyze_match_verbatim_witness :
    (strToCodes "fever" ∈ (analyze_symptoms (strToCodes "I have a Fever") dbFlu).1 ↔
      occursIn (strToCodes "fever") (lowerText (strToCodes "I have a Fever")) = true) ∧
    (analyze_symptoms (strToCodes "I have a Fever") dbFlu).2 =
      totalScore (strToCodes "I have a Fever") dbFlu :=
  analyze_match_verbatim_in_lowered_input dbFlu (strToCodes "I have a Fever")
    (strToCodes "flu", { keywords := [strToCodes "fever"], weight := 2 })
    (strToCodes "fever") (by decide) (by decide)

/-- C4: on the two-condition table fever/cold and the input
`I have a fever and a cough`, `analyze_symptoms` returns the matched
keywords `fever` and `cough` in table iteration order with score 3, and
`get_verdict` of that score is the Monitor band. -/
theorem fever_cough_scenario :
    analyze_symptoms (strToCodes "I have a fever and a cough")
      [(strToCodes "fever",
        { keywords := [strToCodes "fever", strToCodes "chills"], weight := 2 }),
       (strToCodes "cold", { keywords := [strToCodes "cough"], weight := 1 })]
      = ([strToCodes "fever", strToCodes "cough"], 3) ∧
    get_verdict 3 = "🟡 Monitor" := by
  decide

/-- C5: on any input with no case-insensitive keyword substring match
against the table, `analyze_symptoms` returns the empty keyword list and
score 0 as a normal result. -/
theorem analyze_no_match_empty (t : Text) (db : SymptomsDb)
    (h : ∀ e ∈ db, ∀ kw ∈ e.2.keywords,
      occursIn (lowerText kw) (lowerText t) = false) :
    analyze_symptoms t db = ([], 0) := by
  have key : ∀ e ∈ db, ∀ kw ∈ e.2.keywords, occursIn kw (lowerText t) = false := by
    intro e he kw hkw
    cases hb : occursIn kw (lowerText t) with
    | false => rfl
    | true =>
      have := occursIn_lowered kw t hb
      rw [h e he kw hkw] at this
      exact absurd this (by decide)
  have hm := no_match_aux t db key
  rw [analyze_eq, hm.1, hm.2]

theorem analyze_no_match_empty_witness :
    analyze_symptoms (strToCodes "all good today") dbFlu = ([], 0) :=
  analyze_no_match_empty (strToCodes "all good today") dbFlu (by decide)

/-- C6: when the keyword table fails to load, `load_symptoms_db` returns
the empty table instead of terminating, and with the empty table every
input yields no matches, score 0, and the Home Care verdict. -/
theorem empty_table_degrades_home_care (e : String) (t : Text) :
    load_symptoms_db (.error e) = ([] : SymptomsDb) ∧
    analyze_symptoms t (load_symptoms_db (.error e)) = ([], 0) ∧
    get_verdict (analyze_symptoms t (load_symptoms_db (.error e))).2 = "🟢 Home Care" :=
  ⟨rfl, rfl, rfl⟩

/-- C7: `validate_symptoms` rejects a text if and only if it is shorter
than 3 characters or contains a digit; a rejected text makes
`report_symptoms` re-prompt (consume the next input), and any persisted
record comes from a text the validator accepted, with the scorer applied
to exactly that text. -/
theorem validate_gates_scorer :
    (∀ s : Text, validate_symptoms s = false ↔ (s.length < 3 ∨ s.any isDigitCp = true)) ∧
    (∀ (sid : Text) (db : SymptomsDb) (adv : Except Text Text) (s : Text) (rest : List Text),
      validate_symptoms s = false →
      report_symptoms sid db adv (s :: rest) = report_symptoms sid db adv rest) ∧
    (∀ (sid : Text) (db : SymptomsDb) (adv : Except Text Text)
        (inputs : List Text) (r : SessionRecord),
      report_symptoms sid db adv inputs = some r →
      validate_symptoms r.symptoms = true ∧
      (r.keywords, r.score) = analyze_symptoms r.symptoms db) := by
  refine ⟨?_, ?_, ?_⟩
  · intro s
    unfold validate_symptoms
    split_ifs with h1 h2
    · simp [h1]
    · simp [h1, h2]
    · simp [h1, h2]
  · intro sid db adv s rest hv
    simp [report_symptoms, hv]
  · intro sid db adv inputs r h
    have hs := report_some_shape sid db adv inputs r h
    exact ⟨hs.1, by rw [hs.2.1, hs.2.2.1]⟩

theorem validate_gates_scorer_witness :
    report_symptoms ([] : Text) dbFlu (.error ([] : Text))
        [strToCodes "a1", strToCodes "headache"]
      = report_symptoms ([] : Text) dbFlu (.error ([] : Text)) [strToCodes "headache"] :=
  validate_gates_scorer.2.1 ([] : Text) dbFlu (.error ([] : Text))
    (strToCodes "a1") [strToCodes "headache"] (by decide)

/-- C8: whatever record `report_symptoms` persists carries the computed
score and verdict and the advice fields produced by
`get_gemini_response`; when the model call fails both advice fields are
the fixed error-fallback strings, and when the reply is missing the
expected section labels both fields are the fixed parse-fallback
strings — the failure is never propagated. -/
theorem advice_failure_fallbacks (sid : Text) (db : SymptomsDb) (adv : Except Text Text)
    (inputs : List Text) (r : SessionRecord)
    (h : report_symptoms sid db adv inputs = some r) :
    ((r.keywords, r.score) = analyze_symptoms r.symptoms db ∧
     r.verdict = get_verdict r.score ∧
     r.response = get_gemini_response adv) ∧
    (∀ e, adv = .error e →
      r.response =
        { remedy := strToCodes "Error getting AI response. Please try again.",
          doctor_advice :=
            strToCodes "If symptoms persist, please consult a healthcare provider." }) ∧
    (∀ text, adv = .ok text →
      occursIn remedyMarker text = false →
      occursIn doctorMarker text = false →
      r.response =
        { remedy := strToCodes "Unable to parse remedy from AI response",
          doctor_advice :=
            strToCodes "If symptoms persist or worsen, please consult a healthcare provider" }) := by
  have hs := report_some_shape sid db adv inputs r h
  refine ⟨⟨by rw [hs.2.1, hs.2.2.1], hs.2.2.2.1, hs.2.2.2.2.1⟩, ?_, ?_⟩
  · intro e he
    rw [hs.2.2.2.2.1, he]
    rfl
  · intro text ht hrm hdm
    rw [hs.2.2.2.2.1, ht]
    simp [get_gemini_response, dropAfter_eq_none remedyMarker text hrm,
      dropAfter_eq_none doctorMarker text hdm]

theorem advice_failure_fallbacks_witness :
    recHeadache.response =
      { remedy := strToCodes "Error getting AI response. Please try again.",
        doctor_advice :=
          strToCodes "If symptoms persist, please consult a healthcare provider." } :=
  (advice_failure_fallbacks ([] : Text) ([] : SymptomsDb) (.error ([] : Text))
      [strToCodes "headache"] recHeadache (by decide)).2.1 ([] : Text) rfl

/-- C9: for every table whose weights are all non-negative and every
input, the score returned by `analyze_symptoms` is non-negative. -/
theorem analyze_score_nonneg (t : Text) (db : SymptomsDb)
    (h : ∀ e ∈ db, 0 ≤ e.2.weight) :
    0 ≤ (analyze_symptoms t db).2 := by
  rw [analyze_eq]
  exact score_nonneg_aux t db h

theorem analyze_score_nonneg_witness :
    0 ≤ (analyze_symptoms (strToCodes "I have a fever") dbFlu).2 :=
  analyze_score_nonneg (strToCodes "I have a fever") dbFlu (by decide)

/-- C10: an empty-string keyword occurs in every input, including the
empty one, so a condition holding it always has that keyword appended to
the matched list and counted among the matching pairs whose weights make
up the score. -/
theorem empty_keyword_matches_always (t : Text) (db : SymptomsDb)
    (entry : Text × CondData)
    (h1 : entry ∈ db) (h2 : ([] : Text) ∈ entry.2.keywords) :
    occursIn ([] : Text) (lowerText t) = true ∧
    ([] : Text) ∈ entry.2.keywords.filter (fun kw => occursIn kw (lowerText t)) ∧
    ([] : Text) ∈ (analyze_symptoms t db).1 := by
  have hocc : occursIn ([] : Text) (lowerText t) = true := occursIn_nil (lowerText t)
  refine ⟨hocc, List.mem_filter.mpr ⟨h2, hocc⟩, ?_⟩
  rw [analyze_eq]
  exact List.mem_flatMap.mpr ⟨entry, h1, List.mem_filter.mpr ⟨h2, hocc⟩⟩

theorem empty_keyword_matches_always_witness :
    occursIn ([] : Text) (lowerText ([] : Text)) = true ∧
    ([] : Text) ∈ List.filter (fun kw => occursIn kw (lowerText ([] : Text)))
      [([] : Text)] ∧
    ([] : Text) ∈ (analyze_symptoms ([] : Text) dbEmptyKw).1 :=
  empty_keyword_matches_always ([] : Text) dbEmptyKw
    (strToCodes "cond", { keywords := [([] : Text)], weight := 1 })
    (by decide) (by decide)

end HealthBot
